import Mathlib

/-!
Verification of the response-stream processor in `conn_process.go`
(package `clickhouse`): the two dispatch loops `firstBlock` and
`process`, the shared packet handler `handle`, and the cancellation
operation `cancel`, shallowly embedded as pure Lean functions that
return a result together with a trace of the side effects they
perform (lock operations, tag reads, payload decodes, callback
invocations, debug logging, and the cancel write / flush / close).

External collaborators (the payload decoders, the reader, flush and
close) are modelled as oracles: each incoming packet carries the
outcome its payload decode would produce, and the success of the
cancel flush and of the connection close are boolean parameters.
-/

namespace ConnProcess

/-- Modelled from the spec: the wire byte values of the packet
vocabulary (`proto.Server*` and `proto.ClientCancel` constants of
`lib/proto`, referenced by `src/conn_process.go` but not included
under `src/`); the spec fixes them as the protocol constants shared
with the server. -/
def ServerData : Nat := 1

def ServerException : Nat := 2

def ServerProgress : Nat := 3

def ServerEndOfStream : Nat := 5

def ServerProfileInfo : Nat := 6

def ServerTotals : Nat := 7

def ServerExtremes : Nat := 8

def ServerLog : Nat := 10

def ServerTableColumns : Nat := 11

def ServerProfileEvents : Nat := 14

def ClientCancel : Nat := 3

/-- One incoming packet, pre-decoded: the tag byte the reader will
yield, whether the payload decode (by the external decoder for that
tag) succeeds, and, for block packets, the decoded block's row
count. -/
structure InPacket where
  tag : Nat
  decodeOk : Bool
  rows : Nat
  deriving DecidableEq, Repr

/-- The callback table `onProcess`: for the shallow embedding only
whether each optional slot is set (non-nil) matters; invocations are
recorded in the trace. -/
structure onProcess where
  data : Bool
  logs : Bool
  progress : Bool
  profileInfo : Bool
  profileEvents : Bool
  deriving DecidableEq, Repr

/-- Errors the processor can return. `eof` is Go's `io.EOF`, the
end-of-stream sentinel `firstBlock` returns; `ioErr` is a transport
error from `reader.ReadByte`; `decodeErr` a payload-decode failure;
`exception` a decoded server-side exception; `opError` the
"unexpected packet" error carrying the operation name and the
offending byte; `ctxErr` the caller's cancellation reason
(`ctx.Err()`); `flushErr` / `closeErr` failures of the cancel flush
and of the connection close. -/
inductive Err where
  | ioErr
  | decodeErr (tag : Nat)
  | exception
  | opError (op : String) (packet : Nat)
  | ctxErr
  | eof
  | flushErr
  | closeErr
  deriving DecidableEq, Repr

/-- Outcome of a call: a normal return value, a returned error, or a
Go runtime panic from invoking a nil callback slot (named). -/
inductive Res (α : Type) where
  | ok (a : α)
  | err (e : Err)
  | nilCall (slot : String)
  deriving DecidableEq, Repr

/-- Side effects, in order of occurrence. -/
inductive Ev where
  | lock
  | unlock
  | readTag (b : Nat)
  | decodeBlock (rows : Nat)
  | decodeAux (tag : Nat)
  | decodeFail (tag : Nat)
  | callData (rows : Nat)
  | callProfileInfo
  | callProfileEvents
  | callLogs
  | callProgress
  | debugf (s : String)
  | writeUVarInt (n : Nat)
  | flush (ok : Bool)
  | close (ok : Bool)
  deriving DecidableEq, Repr

/-- The non-blocking poll of the cancellation signal (`select` on
`ctx.Done()` with a `default` branch): the head of the context
schedule, one entry per loop iteration; an exhausted schedule means
the context never fires. -/
def ctxDone : List Bool → Bool
  | [] => false
  | b :: _ => b

/-- Invoking an optional callback slot: a set slot records its
invocation event; an unset (nil) slot panics, naming the slot. -/
def invokeSlot (set : Bool) (slot : String) (ev : Ev) : Res Unit × List Ev :=
  if set then (Res.ok (), [ev]) else (Res.nilCall slot, [])

/-- Body of `connect.handle` (the switch on the packet tag), without
the surrounding lock/unlock. Mirrors `src/conn_process.go` lines
90-139: block tags decode a block and invoke `data` only when
`rows != 0` and the slot is set; `Exception` returns the decoded
exception as the error; `ProfileInfo`, `ProfileEvents`, `Log` and
`Progress` invoke their slots unconditionally after decode;
`TableColumns` decodes and discards; any other byte yields
`&OpError(Op: "process", unexpected packet <byte>)`. -/
def handleBody (p : InPacket) (cb : onProcess) : Res Unit × List Ev :=
  if p.tag = ServerData ∨ p.tag = ServerTotals ∨ p.tag = ServerExtremes then
    if p.decodeOk then
      if p.rows ≠ 0 ∧ cb.data = true then
        (Res.ok (), [Ev.decodeBlock p.rows, Ev.callData p.rows])
      else
        (Res.ok (), [Ev.decodeBlock p.rows])
    else (Res.err (Err.decodeErr p.tag), [Ev.decodeFail p.tag])
  else if p.tag = ServerException then
    if p.decodeOk then (Res.err Err.exception, [Ev.decodeAux p.tag])
    else (Res.err (Err.decodeErr p.tag), [Ev.decodeFail p.tag])
  else if p.tag = ServerProfileInfo then
    if p.decodeOk then
      match invokeSlot cb.profileInfo "profileInfo" Ev.callProfileInfo with
      | (r, tr) => (r, [Ev.decodeAux p.tag, Ev.debugf "[profile info]"] ++ tr)
    else (Res.err (Err.decodeErr p.tag), [Ev.decodeFail p.tag])
  else if p.tag = ServerTableColumns then
    if p.decodeOk then (Res.ok (), [Ev.decodeAux p.tag, Ev.debugf "[table columns]"])
    else (Res.err (Err.decodeErr p.tag), [Ev.decodeFail p.tag])
  else if p.tag = ServerProfileEvents then
    if p.decodeOk then
      match invokeSlot cb.profileEvents "profileEvents" Ev.callProfileEvents with
      | (r, tr) => (r, [Ev.decodeAux p.tag] ++ tr)
    else (Res.err (Err.decodeErr p.tag), [Ev.decodeFail p.tag])
  else if p.tag = ServerLog then
    if p.decodeOk then
      match invokeSlot cb.logs "logs" Ev.callLogs with
      | (r, tr) => (r, [Ev.decodeAux p.tag] ++ tr)
    else (Res.err (Err.decodeErr p.tag), [Ev.decodeFail p.tag])
  else if p.tag = ServerProgress then
    if p.decodeOk then
      match invokeSlot cb.progress "progress" Ev.callProgress with
      | (r, tr) => (r, [Ev.decodeAux p.tag, Ev.debugf "[progress]"] ++ tr)
    else (Res.err (Err.decodeErr p.tag), [Ev.decodeFail p.tag])
  else
    (Res.err (Err.opError "process" p.tag), [])

/-- Operation `connect.handle`: acquires `rwLock`, runs the switch body, and
releases the lock on every exit path (Go `defer`, which also runs
when a nil-callback invocation panics). -/
def handle (p : InPacket) (cb : onProcess) : Res Unit × List Ev :=
  ((handleBody p cb).1, Ev.lock :: (handleBody p cb).2 ++ [Ev.unlock])

/-- Result of `connect.flush` for the cancel message: the environment
decides success. -/
def flushRes (fl : Bool) : Option Err :=
  if fl then none else some Err.flushErr

/-- Result of `connect.close`: the environment decides success. -/
def closeRes (cl : Bool) : Option Err :=
  if cl then none else some Err.closeErr

/-- Operation `connect.cancel`: debug-log, write the `ClientCancel` tag, flush,
then close unconditionally; return the close error if close failed,
otherwise the flush error (lines 142-151). -/
def cancel (fl cl : Bool) : Option Err × List Ev :=
  let wErr := flushRes fl
  let cErr := closeRes cl
  ((match cErr with
    | some e => some e
    | none => wErr),
   [Ev.debugf "[cancel]", Ev.writeUVarInt ClientCancel, Ev.flush fl, Ev.close cl])

/-- Loop `connect.firstBlock` (Entry A, lines 35-59): each iteration polls
the cancellation signal (`ctxDone`, one entry consumed per
iteration), then
reads one tag with no lock held. `Data` decodes and returns the
block; `EndOfStream` debug-logs and returns `io.EOF`; everything
else goes through `handle`, and the loop continues only when `handle`
returns no error. An empty stream makes `ReadByte` fail with a
transport error. The error `cancel` returns is discarded, as in the
source (`c.cancel()` with the return value ignored). -/
def firstBlock (fl cl : Bool) (cb : onProcess) : List Bool → List InPacket → Res Nat × List Ev
  | ctx, [] =>
    if ctxDone ctx = true then (Res.err Err.ctxErr, (cancel fl cl).2)
    else (Res.err Err.ioErr, [])
  | ctx, p :: rest =>
    if ctxDone ctx = true then (Res.err Err.ctxErr, (cancel fl cl).2)
    else if p.tag = ServerData then
      if p.decodeOk then (Res.ok p.rows, [Ev.readTag p.tag, Ev.decodeBlock p.rows])
      else (Res.err (Err.decodeErr p.tag), [Ev.readTag p.tag, Ev.decodeFail p.tag])
    else if p.tag = ServerEndOfStream then
      (Res.err Err.eof, [Ev.readTag p.tag, Ev.debugf "[end of stream]"])
    else
      match handle p cb with
      | (Res.ok _, htr) =>
        let out := firstBlock fl cl cb ctx.tail rest
        (out.1, Ev.readTag p.tag :: htr ++ out.2)
      | (Res.err e, htr) => (Res.err e, Ev.readTag p.tag :: htr)
      | (Res.nilCall s, htr) => (Res.nilCall s, Ev.readTag p.tag :: htr)

/-- Loop `connect.process` (Entry B, lines 61-84): each iteration polls the
cancellation signal, then reads one tag under the lock (released
before dispatch). `EndOfStream` debug-logs and returns success (the
sole success); every other tag goes through `handle`, continuing only
when `handle` returns no error. -/
def process (fl cl : Bool) (cb : onProcess) : List Bool → List InPacket → Res Unit × List Ev
  | ctx, [] =>
    if ctxDone ctx = true then (Res.err Err.ctxErr, (cancel fl cl).2)
    else (Res.err Err.ioErr, [Ev.lock, Ev.unlock])
  | ctx, p :: rest =>
    if ctxDone ctx = true then (Res.err Err.ctxErr, (cancel fl cl).2)
    else if p.tag = ServerEndOfStream then
      (Res.ok (), [Ev.lock, Ev.readTag p.tag, Ev.unlock, Ev.debugf "[end of stream]"])
    else
      match handle p cb with
      | (Res.ok _, htr) =>
        let out := process fl cl cb ctx.tail rest
        (out.1, Ev.lock :: Ev.readTag p.tag :: Ev.unlock :: htr ++ out.2)
      | (Res.err e, htr) => (Res.err e, Ev.lock :: Ev.readTag p.tag :: Ev.unlock :: htr)
      | (Res.nilCall s, htr) => (Res.nilCall s, Ev.lock :: Ev.readTag p.tag :: Ev.unlock :: htr)

/-- The tag vocabulary the processor knows: the tags `handle` matches
plus the two the loops intercept (`Data`, `EndOfStream`). -/
def knownTags : List Nat :=
  [ServerData, ServerTotals, ServerExtremes, ServerException, ServerProfileInfo,
   ServerTableColumns, ServerProfileEvents, ServerLog, ServerProgress, ServerEndOfStream]

/-- The auxiliary tags `handle` processes without terminating the
loop: everything known except `Data` (intercepted by `firstBlock`),
`Exception` (terminal) and `EndOfStream` (intercepted by the loops). -/
def auxTags : List Nat :=
  [ServerTotals, ServerExtremes, ServerProfileInfo, ServerTableColumns,
   ServerProfileEvents, ServerLog, ServerProgress]

/-- The debug-log lines of a trace (strings passed to `debugf`). -/
def debugStrings (tr : List Ev) : List String :=
  tr.filterMap fun e =>
    match e with
    | Ev.debugf s => some s
    | _ => none

/-- True on a `callData` event. -/
def isCallData : Ev → Bool
  | Ev.callData _ => true
  | _ => false

/-- True on the write of the `ClientCancel` tag. -/
def isWriteCancel : Ev → Bool
  | Ev.writeUVarInt n => n == ClientCancel
  | _ => false

/-- True on a `readTag` event. -/
def isReadTag : Ev → Bool
  | Ev.readTag _ => true
  | _ => false

end ConnProcess

namespace ConnProcess

/-- Trace events a `handleBody` run may emit: never a lock operation
and never a tag read. -/
def evOk : Ev → Bool
  | Ev.lock => false
  | Ev.unlock => false
  | Ev.readTag _ => false
  | _ => true

theorem handleBody_evOk (p : InPacket) (cb : onProcess) :
    (handleBody p cb).2.all evOk = true := by
  unfold handleBody invokeSlot
  split_ifs <;> rfl

theorem handleBody_events (p : InPacket) (cb : onProcess) :
    ∀ e ∈ (handleBody p cb).2, e ≠ Ev.lock ∧ e ≠ Ev.unlock ∧ isReadTag e = false := by
  intro e he
  have h := List.all_eq_true.mp (handleBody_evOk p cb) e he
  cases e <;> simp_all [evOk, isReadTag]

theorem handle_trace_shape (p : InPacket) (cb : onProcess) :
    (handle p cb).2 = Ev.lock :: (handleBody p cb).2 ++ [Ev.unlock] := rfl

theorem handle_readTag_free (p : InPacket) (cb : onProcess) :
    ∀ e ∈ (handle p cb).2, isReadTag e = false := by
  intro e he
  rcases List.mem_cons.mp he with h | h
  · subst h; rfl
  · rcases List.mem_append.mp h with h2 | h2
    · exact (handleBody_events p cb e h2).2.2
    · rw [List.mem_singleton.mp h2]; rfl

theorem handle_aux_ok (p : InPacket) (cb : onProcess) (ht : p.tag ∈ auxTags)
    (hd : p.decodeOk = true) (hpi : cb.profileInfo = true) (hpe : cb.profileEvents = true)
    (hlg : cb.logs = true) (hpr : cb.progress = true) :
    (handle p cb).1 = Res.ok () := by
  simp only [auxTags, ServerTotals, ServerExtremes, ServerProfileInfo, ServerTableColumns,
    ServerProfileEvents, ServerLog, ServerProgress, List.mem_cons, List.not_mem_nil,
    or_false] at ht
  rcases ht with h | h | h | h | h | h | h <;>
    simp [handle, handleBody, invokeSlot, h, hd, hpi, hpe, hlg, hpr,
      ServerData, ServerTotals, ServerExtremes, ServerException, ServerProfileInfo,
      ServerTableColumns, ServerProfileEvents, ServerLog, ServerProgress] <;>
    first
    | rfl
    | (split <;> rfl)


/-- C1: for a cancellation signaled at the top of a loop iteration of
either entry point, before a packet tag is read, the processor runs
the Cancellation Protocol (exactly one Cancel write, then flush, then
close) and the loop returns the caller's cancellation reason
(`ctx.Err()`), regardless of the flush/close outcomes. -/
theorem C1_cancel_protocol (fl cl : Bool) (cb : onProcess) (ctx : List Bool)
    (stream : List InPacket) (h : ctxDone ctx = true) :
    firstBlock fl cl cb ctx stream = (Res.err Err.ctxErr, (cancel fl cl).2) ∧
    process fl cl cb ctx stream = (Res.err Err.ctxErr, (cancel fl cl).2) ∧
    (cancel fl cl).2.countP isWriteCancel = 1 ∧
    (cancel fl cl).2 =
      [Ev.debugf "[cancel]", Ev.writeUVarInt ClientCancel, Ev.flush fl, Ev.close cl] := by
  refine ⟨?_, ?_, rfl, rfl⟩
  · cases stream <;> simp [firstBlock, h]
  · cases stream <;> simp [process, h]

theorem C1_cancel_protocol_witness :
    ctxDone [true] = true ∧
    firstBlock false false ⟨true, true, true, true, true⟩ [true] [⟨1, true, 2⟩] =
      (Res.err Err.ctxErr, (cancel false false).2) :=
  ⟨rfl, (C1_cancel_protocol false false ⟨true, true, true, true, true⟩ [true]
    [⟨1, true, 2⟩] rfl).1⟩

/-- C2: for every Data/Totals/Extremes packet handled by `handle`, a
zero-row block is decoded but the data callback is never invoked;
a block with rows > 0 with the data slot set gets the callback
invoked exactly once with that block. -/
theorem C2_data_callback (p : InPacket) (cb : onProcess)
    (hb : p.tag = ServerData ∨ p.tag = ServerTotals ∨ p.tag = ServerExtremes)
    (hd : p.decodeOk = true) :
    Ev.decodeBlock p.rows ∈ (handle p cb).2 ∧
    (p.rows = 0 → (handle p cb).2.countP isCallData = 0 ∧ (handle p cb).1 = Res.ok ()) ∧
    (p.rows ≠ 0 → cb.data = true →
      (handle p cb).2.count (Ev.callData p.rows) = 1 ∧ (handle p cb).1 = Res.ok ()) := by
  have hbody : handleBody p cb =
      (if p.rows ≠ 0 ∧ cb.data = true then
        (Res.ok (), [Ev.decodeBlock p.rows, Ev.callData p.rows])
      else (Res.ok (), [Ev.decodeBlock p.rows])) := by
    unfold handleBody
    rw [if_pos hb]
    simp [hd]
  refine ⟨?_, ?_, ?_⟩
  · rw [handle_trace_shape, hbody]
    split <;> simp
  · intro h0
    rw [handle, hbody]
    simp [h0, isCallData]
  · intro h0 hset
    rw [handle, hbody]
    simp [h0, hset, isCallData, List.count_cons]

theorem C2_data_callback_witness :
    ((⟨7, true, 0⟩ : InPacket).tag = ServerData ∨ (⟨7, true, 0⟩ : InPacket).tag = ServerTotals ∨
      (⟨7, true, 0⟩ : InPacket).tag = ServerExtremes) ∧
    (handle ⟨7, true, 0⟩ ⟨true, true, true, true, true⟩).2.countP isCallData = 0 ∧
    (handle ⟨1, true, 3⟩ ⟨true, true, true, true, true⟩).2.count (Ev.callData 3) = 1 :=
  ⟨Or.inr (Or.inl rfl),
   ((C2_data_callback ⟨7, true, 0⟩ ⟨true, true, true, true, true⟩ (Or.inr (Or.inl rfl))
      rfl).2.1 rfl).1,
   ((C2_data_callback ⟨1, true, 3⟩ ⟨true, true, true, true, true⟩ (Or.inl rfl)
      rfl).2.2 (by decide) rfl).1⟩

/-- C3: every tag byte outside the known vocabulary makes `handle`
return the "unexpected packet" OpError carrying the exact byte and
the operation name "process"; the packet is not skipped: the drain
loop terminates immediately with that error. -/
theorem C3_unexpected_packet (p : InPacket) (cb : onProcess) (h : p.tag ∉ knownTags) :
    handle p cb = (Res.err (Err.opError "process" p.tag), [Ev.lock, Ev.unlock]) ∧
    (∀ (fl cl : Bool) (ctx : List Bool) (rest : List InPacket), ctxDone ctx = false →
      process fl cl cb ctx (p :: rest) =
        (Res.err (Err.opError "process" p.tag),
         [Ev.lock, Ev.readTag p.tag, Ev.unlock, Ev.lock, Ev.unlock])) ∧
    (∀ (fl cl : Bool) (ctx : List Bool) (rest : List InPacket), ctxDone ctx = false →
      firstBlock fl cl cb ctx (p :: rest) =
        (Res.err (Err.opError "process" p.tag),
         [Ev.readTag p.tag, Ev.lock, Ev.unlock])) := by
  simp only [knownTags, List.mem_cons, List.not_mem_nil, or_false, not_or,
    ServerData, ServerTotals, ServerExtremes, ServerException, ServerProfileInfo,
    ServerTableColumns, ServerProfileEvents, ServerLog, ServerProgress,
    ServerEndOfStream] at h
  obtain ⟨h1, h7, h8, h2, h6, h11, h14, h10, h3, h5⟩ := h
  have hh : handle p cb = (Res.err (Err.opError "process" p.tag), [Ev.lock, Ev.unlock]) := by
    rw [handle]
    unfold handleBody
    simp [ServerData, ServerTotals, ServerExtremes, ServerException, ServerProfileInfo,
      ServerTableColumns, ServerProfileEvents, ServerLog, ServerProgress,
      h1, h7, h8, h2, h6, h11, h14, h10, h3]
  refine ⟨hh, fun fl cl ctx rest hc => ?_, fun fl cl ctx rest hc => ?_⟩
  · simp [process, hc, ServerEndOfStream, h5, hh]
  · simp [firstBlock, hc, ServerData, ServerEndOfStream, h1, h5, hh]

theorem C3_unexpected_packet_witness :
    (99 : Nat) ∉ knownTags ∧
    handle ⟨99, true, 0⟩ ⟨true, true, true, true, true⟩ =
      (Res.err (Err.opError "process" 99), [Ev.lock, Ev.unlock]) :=
  ⟨by decide, (C3_unexpected_packet ⟨99, true, 0⟩ ⟨true, true, true, true, true⟩
    (by decide)).1⟩

/-- C5: `handle` invokes the profileInfo, profileEvents, logs and
progress slots unconditionally after a successful decode, so an unset
slot means a nil-function invocation (runtime panic), not a no-op and
not an error; only the data slot is nil-checked, so an unset data
slot is a harmless no-op. -/
theorem C5_nil_slot_panics (p : InPacket) (cb : onProcess) (hd : p.decodeOk = true) :
    (p.tag = ServerProfileInfo → cb.profileInfo = false →
      handle p cb = (Res.nilCall "profileInfo",
        [Ev.lock, Ev.decodeAux p.tag, Ev.debugf "[profile info]", Ev.unlock])) ∧
    (p.tag = ServerProfileEvents → cb.profileEvents = false →
      (handle p cb).1 = Res.nilCall "profileEvents") ∧
    (p.tag = ServerLog → cb.logs = false → (handle p cb).1 = Res.nilCall "logs") ∧
    (p.tag = ServerProgress → cb.progress = false → (handle p cb).1 = Res.nilCall "progress") ∧
    ((p.tag = ServerData ∨ p.tag = ServerTotals ∨ p.tag = ServerExtremes) → cb.data = false →
      (handle p cb).1 = Res.ok ()) ∧
    (∀ s, Res.nilCall s ≠ (Res.ok () : Res Unit)) ∧
    (∀ s e, Res.nilCall s ≠ (Res.err e : Res Unit)) := by
  refine ⟨?_, ?_, ?_, ?_, ?_, fun s => by simp, fun s e => by simp⟩
  · intro ht hs
    rw [handle]
    unfold handleBody
    simp [ht, hs, hd, invokeSlot, ServerData, ServerTotals, ServerExtremes,
      ServerException, ServerProfileInfo]
  · intro ht hs
    rw [handle]
    unfold handleBody
    simp [ht, hs, hd, invokeSlot, ServerData, ServerTotals, ServerExtremes,
      ServerException, ServerProfileInfo, ServerTableColumns, ServerProfileEvents]
  · intro ht hs
    rw [handle]
    unfold handleBody
    simp [ht, hs, hd, invokeSlot, ServerData, ServerTotals, ServerExtremes,
      ServerException, ServerProfileInfo, ServerTableColumns, ServerProfileEvents,
      ServerLog]
  · intro ht hs
    rw [handle]
    unfold handleBody
    simp [ht, hs, hd, invokeSlot, ServerData, ServerTotals, ServerExtremes,
      ServerException, ServerProfileInfo, ServerTableColumns, ServerProfileEvents,
      ServerLog, ServerProgress]
  · intro ht hs
    rw [handle]
    unfold handleBody
    rw [if_pos ht]
    simp [hd, hs]

theorem C5_nil_slot_panics_witness :
    (handle ⟨6, true, 0⟩ ⟨false, false, false, false, false⟩).1 = Res.nilCall "profileInfo" ∧
    (handle ⟨14, true, 0⟩ ⟨false, false, false, false, false⟩).1 = Res.nilCall "profileEvents" ∧
    (handle ⟨10, true, 0⟩ ⟨false, false, false, false, false⟩).1 = Res.nilCall "logs" ∧
    (handle ⟨3, true, 0⟩ ⟨false, false, false, false, false⟩).1 = Res.nilCall "progress" ∧
    (handle ⟨1, true, 4⟩ ⟨false, false, false, false, false⟩).1 = Res.ok () :=
  ⟨congrArg Prod.fst ((C5_nil_slot_panics ⟨6, true, 0⟩ ⟨false, false, false, false, false⟩
      rfl).1 rfl rfl),
   (C5_nil_slot_panics ⟨14, true, 0⟩ ⟨false, false, false, false, false⟩ rfl).2.1 rfl rfl,
   (C5_nil_slot_panics ⟨10, true, 0⟩ ⟨false, false, false, false, false⟩ rfl).2.2.1 rfl rfl,
   (C5_nil_slot_panics ⟨3, true, 0⟩ ⟨false, false, false, false, false⟩ rfl).2.2.2.1 rfl rfl,
   (C5_nil_slot_panics ⟨1, true, 4⟩ ⟨false, false, false, false, false⟩
      rfl).2.2.2.2.1 (Or.inl rfl) rfl⟩

/-- C7: for an Exception packet whose payload decodes, `handle`
returns the decoded exception as the terminal error and both loops
end the stream there: the drain loop's trace contains exactly one tag
read no matter what packets follow. -/
theorem C7_exception_terminal (fl cl : Bool) (cb : onProcess) (ctx : List Bool)
    (p : InPacket) (rest : List InPacket) (hc : ctxDone ctx = false)
    (ht : p.tag = ServerException) (hd : p.decodeOk = true) :
    process fl cl cb ctx (p :: rest) =
      (Res.err Err.exception,
       [Ev.lock, Ev.readTag p.tag, Ev.unlock, Ev.lock, Ev.decodeAux p.tag, Ev.unlock]) ∧
    firstBlock fl cl cb ctx (p :: rest) =
      (Res.err Err.exception, [Ev.readTag p.tag, Ev.lock, Ev.decodeAux p.tag, Ev.unlock]) ∧
    (process fl cl cb ctx (p :: rest)).2.countP isReadTag = 1 := by
  have hh : handle p cb = (Res.err Err.exception, [Ev.lock, Ev.decodeAux p.tag, Ev.unlock]) := by
    rw [handle]
    unfold handleBody
    simp [ht, hd, ServerData, ServerTotals, ServerExtremes, ServerException]
  have hp : process fl cl cb ctx (p :: rest) =
      (Res.err Err.exception,
       [Ev.lock, Ev.readTag p.tag, Ev.unlock, Ev.lock, Ev.decodeAux p.tag, Ev.unlock]) := by
    simp [process, hc, ht, ServerEndOfStream, ServerException, hh]
  refine ⟨hp, ?_, ?_⟩
  · simp [firstBlock, hc, ht, ServerData, ServerEndOfStream, ServerException, hh]
  · rw [hp]; rfl

theorem C7_exception_terminal_witness :
    process true true ⟨true, true, true, true, true⟩ []
        [⟨2, true, 0⟩, ⟨1, true, 9⟩, ⟨5, true, 0⟩] =
      (Res.err Err.exception,
       [Ev.lock, Ev.readTag 2, Ev.unlock, Ev.lock, Ev.decodeAux 2, Ev.unlock]) :=
  (C7_exception_terminal true true ⟨true, true, true, true, true⟩ [] ⟨2, true, 0⟩
    [⟨1, true, 9⟩, ⟨5, true, 0⟩] rfl rfl rfl).1

/-- C8: `cancel` closes the connection unconditionally after writing
the Cancel tag and flushing, and its reported error gives precedence
to the close error: the close error when close fails, the flush error
only when close succeeds. -/
theorem C8_close_precedence (fl cl : Bool) :
    Ev.close cl ∈ (cancel fl cl).2 ∧
    (cancel fl cl).2 =
      [Ev.debugf "[cancel]", Ev.writeUVarInt ClientCancel, Ev.flush fl, Ev.close cl] ∧
    (cancel fl cl).1 =
      (if cl = false then some Err.closeErr
       else if fl = false then some Err.flushErr else none) := by
  refine ⟨by simp [cancel], rfl, ?_⟩
  cases fl <;> cases cl <;> rfl

/-- C10: `handle` holds the lock for its entire duration — the trace
is lock, then the whole body (every payload decode and callback
included, none of which locks or unlocks), then unlock — and the lock
is released on every exit path, whatever the result. -/
theorem C10_lock_balanced (p : InPacket) (cb : onProcess) :
    ∃ mid, (handle p cb).2 = Ev.lock :: mid ++ [Ev.unlock] ∧
      ∀ e ∈ mid, e ≠ Ev.lock ∧ e ≠ Ev.unlock :=
  ⟨(handleBody p cb).2, rfl, fun e he =>
    ⟨(handleBody_events p cb e he).1, (handleBody_events p cb e he).2.1⟩⟩


/-- C4 counterexample: the packet sequence [Exception, EndOfStream]
ends in EndOfStream and contains no Data packet, yet `firstBlock`
returns the decoded exception error, not the end-of-stream
sentinel. -/
theorem C4_counterexample :
    (([⟨ServerException, true, 0⟩, ⟨ServerEndOfStream, true, 0⟩] : List InPacket).all
        fun p => p.tag != ServerData) = true ∧
    (([⟨ServerException, true, 0⟩, ⟨ServerEndOfStream, true, 0⟩] : List InPacket).getLast?.map
        InPacket.tag) = some ServerEndOfStream ∧
    (firstBlock true true ⟨true, true, true, true, true⟩ []
        [⟨ServerException, true, 0⟩, ⟨ServerEndOfStream, true, 0⟩]).1 = Res.err Err.exception ∧
    Res.err Err.exception ≠ (Res.err Err.eof : Res Nat) := by decide

/-- C4 (amended): for every packet sequence of successfully handled
auxiliary packets (no Data, no Exception, no unknown tags, no decode
failures, required callback slots set) ending in EndOfStream, and no
cancellation, `firstBlock` returns the `io.EOF` end-of-stream
sentinel, which is distinct from the transport, decode,
protocol-exception, desync and cancellation errors. -/
theorem C4_no_data_eof (fl cl : Bool) (cb : onProcess)
    (hpi : cb.profileInfo = true) (hpe : cb.profileEvents = true)
    (hlg : cb.logs = true) (hpr : cb.progress = true)
    (aux : List InPacket) (q : InPacket)
    (haux : ∀ p ∈ aux, p.tag ∈ auxTags ∧ p.decodeOk = true)
    (hq : q.tag = ServerEndOfStream) :
    (firstBlock fl cl cb [] (aux ++ [q])).1 = Res.err Err.eof ∧
    Err.eof ≠ Err.ioErr ∧ (∀ t, Err.eof ≠ Err.decodeErr t) ∧ Err.eof ≠ Err.exception ∧
    (∀ s b, Err.eof ≠ Err.opError s b) ∧ Err.eof ≠ Err.ctxErr := by
  refine ⟨?_, by simp, fun t => by simp, by simp, fun s b => by simp, by simp⟩
  induction aux with
  | nil =>
    simp [firstBlock, ctxDone, hq, ServerData, ServerEndOfStream]
  | cons p rest ih =>
    obtain ⟨ht, hd⟩ := haux p (List.mem_cons_self p rest)
    have hmem2 : p.tag ∈ ([7, 8, 6, 11, 14, 10, 3] : List Nat) := by
      simpa [auxTags, ServerTotals, ServerExtremes, ServerProfileInfo, ServerTableColumns,
        ServerProfileEvents, ServerLog, ServerProgress] using ht
    have h1 : ¬ p.tag = ServerData := by
      intro hc
      rw [hc] at hmem2
      simp [ServerData] at hmem2
    have h5 : ¬ p.tag = ServerEndOfStream := by
      intro hc
      rw [hc] at hmem2
      simp [ServerEndOfStream] at hmem2
    have hok : (handle p cb).1 = Res.ok () := handle_aux_ok p cb ht hd hpi hpe hlg hpr
    rcases hh : handle p cb with ⟨r, htr⟩
    rw [hh] at hok
    cases r with
    | ok a =>
      simp only [List.cons_append]
      simp [firstBlock, ctxDone, h1, h5, hh]
      exact ih (fun x hx => haux x (List.mem_cons_of_mem p hx))
    | err e => simp at hok
    | nilCall s => simp at hok

theorem C4_no_data_eof_witness :
    (∀ p ∈ ([⟨7, true, 0⟩, ⟨6, true, 0⟩] : List InPacket),
      p.tag ∈ auxTags ∧ p.decodeOk = true) ∧
    (firstBlock true true ⟨true, true, true, true, true⟩ []
        [⟨7, true, 0⟩, ⟨6, true, 0⟩, ⟨5, true, 0⟩]).1 = Res.err Err.eof :=
  ⟨by decide,
   (C4_no_data_eof true true ⟨true, true, true, true, true⟩ rfl rfl rfl rfl
      [⟨7, true, 0⟩, ⟨6, true, 0⟩] ⟨5, true, 0⟩ (by decide) rfl).1⟩

/-- C6: Entry B (`process`) returns success exactly when it reads an
EndOfStream tag: the run succeeds iff its trace contains a read of
the EndOfStream byte; every other termination carries a non-success
outcome. -/
theorem C6_success_iff_eos (fl cl : Bool) (cb : onProcess) (ctx : List Bool)
    (stream : List InPacket) :
    (process fl cl cb ctx stream).1 = Res.ok () ↔
      Ev.readTag ServerEndOfStream ∈ (process fl cl cb ctx stream).2 := by
  induction stream generalizing ctx with
  | nil =>
    by_cases h : ctxDone ctx = true
    · simp [process, h, cancel]
    · simp [process, h]
  | cons p rest ih =>
    by_cases h : ctxDone ctx = true
    · simp [process, h, cancel]
    · by_cases h5 : p.tag = ServerEndOfStream
      · simp [process, h, h5]
      · rcases hh : handle p cb with ⟨r, htr⟩
        have hnr : Ev.readTag ServerEndOfStream ∉ htr := by
          intro hmem
          have hfree := handle_readTag_free p cb (Ev.readTag ServerEndOfStream)
            (by rw [hh]; exact hmem)
          simp [isReadTag] at hfree
        cases r with
        | ok a => simp [process, h, h5, Ne.symm h5, hh, hnr, ih]
        | err e => simp [process, h, h5, Ne.symm h5, hh, hnr]
        | nilCall s => simp [process, h, h5, Ne.symm h5, hh, hnr]

/-- C9 counterexample: with cancellation fired and both the cancel
flush and the close failing, `cancel` reports the close error, but
both loops return only `ctx.Err()` and log only the fixed "[cancel]"
line: the flush/close errors are silently discarded, not surfaced. -/
theorem C9_counterexample :
    (cancel false false).1 = some Err.closeErr ∧
    (firstBlock false false ⟨true, true, true, true, true⟩ [true] []).1 = Res.err Err.ctxErr ∧
    (firstBlock false false ⟨true, true, true, true, true⟩ [true] []).1 ≠
      Res.err Err.closeErr ∧
    (firstBlock false false ⟨true, true, true, true, true⟩ [true] []).1 ≠
      Res.err Err.flushErr ∧
    debugStrings (firstBlock false false ⟨true, true, true, true, true⟩ [true] []).2 =
      ["[cancel]"] ∧
    (process false false ⟨true, true, true, true, true⟩ [true] []).1 = Res.err Err.ctxErr ∧
    debugStrings (process false false ⟨true, true, true, true, true⟩ [true] []).2 =
      ["[cancel]"] := by decide

/-- C9 (amended): when cancellation fires, both loops discard the
error `cancel` returns: the caller receives only the cancellation
reason `ctx.Err()` and the only diagnostic logged is the fixed
"[cancel]" debug line, whatever the flush and close outcomes. -/
theorem C9_errors_discarded (fl cl : Bool) (cb : onProcess) (ctx : List Bool)
    (stream : List InPacket) (h : ctxDone ctx = true) :
    (firstBlock fl cl cb ctx stream).1 = Res.err Err.ctxErr ∧
    debugStrings (firstBlock fl cl cb ctx stream).2 = ["[cancel]"] ∧
    (process fl cl cb ctx stream).1 = Res.err Err.ctxErr ∧
    debugStrings (process fl cl cb ctx stream).2 = ["[cancel]"] := by
  have hf : firstBlock fl cl cb ctx stream = (Res.err Err.ctxErr, (cancel fl cl).2) := by
    cases stream <;> simp [firstBlock, h]
  have hp : process fl cl cb ctx stream = (Res.err Err.ctxErr, (cancel fl cl).2) := by
    cases stream <;> simp [process, h]
  rw [hf, hp]
  exact ⟨rfl, rfl, rfl, rfl⟩

theorem C9_errors_discarded_witness :
    ctxDone [true] = true ∧
    debugStrings (firstBlock false true ⟨true, true, true, true, true⟩ [true]
      [⟨1, true, 1⟩]).2 = ["[cancel]"] :=
  ⟨rfl, (C9_errors_discarded false true ⟨true, true, true, true, true⟩ [true]
    [⟨1, true, 1⟩] rfl).2.1⟩

end ConnProcess
